import Mathlib

/-!
Verification development for the udb-cli knowledge-base engine.

Each TypeScript function relevant to the specification's claims is given a
shallow embedding as a Lean definition, translated from the source:

* JS strings are embedded as `List Char`; the ASCII whitespace characters
  recognised by the regex class `\s` are modelled by `isWs`.
* JS numbers are embedded as `Nat` / `Int` where the code only ever holds
  integers, and as `Real` for the floating-point similarity arithmetic of the
  search engine (exact real arithmetic standing in for IEEE doubles).
* Fallible or stateful code is embedded as explicit state passing.
-/

set_option maxRecDepth 10000

namespace UDB

/-- JS strings are modelled as lists of characters. -/
abbrev Str := List Char

/-- Characters matched by the regex class `\s` (ASCII range; the source texts
and patterns are ASCII). -/
def isWs (c : Char) : Bool :=
  c == ' ' || c == '\t' || c == '\n' || c == '\r' ||
    c == Char.ofNat 11 || c == Char.ofNat 12

/-- The `String.prototype.trim`: strip leading and trailing whitespace. -/
def jsTrim (s : Str) : Str :=
  ((s.dropWhile isWs).reverse.dropWhile isWs).reverse

/-- The `String.prototype.slice(a, b)` for `0 ≤ a ≤ b` (the only way the sources
call it): the characters at positions `a ≤ i < b`. -/
def jsSlice (s : Str) (a b : Nat) : Str :=
  (s.drop a).take (b - a)

/-! ## Chunker (`src/kb/chunking.ts`) -/

/-- Characters of the class `[.!?]` in the `SENTENCE_BOUNDARY` regex. -/
def isSentencePunct (c : Char) : Bool :=
  c == '.' || c == '!' || c == '?'

/-- A consecutive pair (previous char, current char) forming the start of a
match of `(?<=[.!?])\s+`. -/
def boundaryPair (p : Char × Char) : Bool :=
  isSentencePunct p.1 && isWs p.2

/-- Index of the first match of `SENTENCE_BOUNDARY = /(?<=[.!?])\s+/` in `w`,
as returned by `SENTENCE_BOUNDARY.exec(window).index`.  `exec` without the `g`
flag returns the leftmost match; the lookbehind needs a preceding character
inside `w`, so a match index is always `≥ 1`. -/
def firstSB (w : Str) : Option Nat :=
  ((w.zip w.tail).findIdx? boundaryPair).map (· + 1)

/-- Length of the maximal whitespace run of `w` starting at index `i`: the
length of `match[0]` for the greedy `\s+` of the sentence-boundary regex. -/
def wsRunFrom (w : Str) (i : Nat) : Nat :=
  ((w.drop i).takeWhile isWs).length

/-- Index of the last whitespace character of `w`, i.e. the match index of
`/\s\S*$/` (its leftmost match starts at the last whitespace, after which only
non-whitespace remains), or `none` when `w` has no whitespace. -/
def lastWsIdx (w : Str) : Option Nat :=
  (w.reverse.findIdx? isWs).map (fun j => w.length - 1 - j)

/-- One round of the `chunkText` loop body computing the cut position `end`
for the chunk starting at `pos` (source lines 31-51). -/
def chunkEnd (text : Str) (pos chunkSize overlap : Nat) : Nat :=
  let len := text.length
  let end0 := min (pos + chunkSize) len
  if end0 < len then
    let wStart := max pos (end0 - overlap)
    let wEnd := min (end0 + overlap) len
    let w := jsSlice text wStart wEnd
    match firstSB w with
    | some i => wStart + i + wsRunFrom w i
    | none =>
      match lastWsIdx w with
      | some j => wStart + j + 1
      | none => end0
  else end0

/-- The `while (position < text.length)` loop of `chunkText`, with explicit
fuel (the JS loop diverges when an iteration makes no progress, e.g. with
`chunkSize = 0` and an empty window; `text.length + 1` units of fuel suffice
whenever every iteration advances, which concrete evaluations confirm).
Returns the collected chunks together with the final `position`. -/
def chunkLoop (text : Str) (chunkSize overlap minChunk : Nat) :
    Nat → Nat → List Str → List Str × Nat
  | 0, pos, acc => (acc.reverse, pos)
  | fuel + 1, pos, acc =>
    if pos < text.length then
      let e := chunkEnd text pos chunkSize overlap
      let chunk := jsTrim (jsSlice text pos e)
      let acc' := if minChunk ≤ chunk.length then chunk :: acc else acc
      chunkLoop text chunkSize overlap minChunk fuel e acc'
    else (acc.reverse, pos)

/-- The `chunks[chunks.length - 1] += ' ' + remainder`. -/
def appendToLast : List Str → Str → List Str
  | [], _ => []
  | [c], r => [c ++ (' ' :: r)]
  | c :: c' :: rest, r => c :: appendToLast (c' :: rest) r

/-- The `chunkText(text, {chunkSize, overlap, minChunk})` from
`src/kb/chunking.ts`, including the post-loop tiny-remainder block
(lines 63-70 of the source). -/
def chunkText (text : Str) (chunkSize overlap minChunk : Nat) : List Str :=
  let r := chunkLoop text chunkSize overlap minChunk (text.length + 1) 0 []
  let chunks := r.1
  let lastEnd := r.2
  if lastEnd < text.length ∧ text.length - lastEnd < minChunk then
    let remainder := jsTrim (text.drop lastEnd)
    if 0 < remainder.length ∧ chunks ≠ [] then appendToLast chunks remainder
    else chunks
  else chunks

/-- A sentence-terminal boundary (in the sense of `SENTENCE_BOUNDARY`)
starting at index `i` of the window `w`: sentence punctuation at `i - 1`
followed by whitespace at `i`. -/
def SBstart (w : Str) (i : Nat) : Prop :=
  1 ≤ i ∧ i < w.length ∧
    isSentencePunct (w.getD (i - 1) 'x') = true ∧ isWs (w.getD i 'x') = true

instance (w : Str) (i : Nat) : Decidable (SBstart w i) := by
  unfold SBstart; infer_instance

/-! ## URL normalization (`src/kb/dedupe.ts`)

`normalizeUrl` calls the platform's WHATWG `new URL`.  The parser below models
that platform behaviour for the fragment of URL syntax the claims exercise:
plain ASCII `http(s)` URLs without userinfo, percent-escapes, backslashes or
dot path segments.  Inputs outside this fragment are rejected (`none`), which
the embedding of `normalizeUrl` maps to the `catch` branch. -/

/-- Case-insensitive character equality (ASCII). -/
def charCI (a b : Char) : Bool := a.toLower == b.toLower

/-- Case-insensitive prefix test (ASCII), for the `i`-flagged regexes. -/
def startsWithCI (s pat : Str) : Bool :=
  (s.take pat.length).map Char.toLower == pat.map Char.toLower

/-- The test `/^https?:\/\//i.test(s)`. -/
def hasHttpScheme (s : Str) : Bool :=
  startsWithCI s ("http://".toList) || startsWithCI s ("https://".toList)

/-- Parsed state of a WHATWG URL: scheme and host are stored lowercased, the
port is absent when empty or equal to the scheme's default, search parameters
are an ordered key-value list, the fragment excludes the `#`. -/
structure UrlParts where
  scheme : Str
  host : Str
  port : Option Nat
  path : Str
  query : List (Str × Str)
  fragment : Option Str
  deriving DecidableEq

/-- Characters allowed in a host by this model (alphanumeric, `-`, `.`, `_`);
anything else makes `new URL` throw for the URLs in scope. -/
def isHostChar (c : Char) : Bool :=
  c.isAlphanum || c == '-' || c == '.' || c == '_'

/-- Split one `key=value` piece of a query string at the first `=` (a piece
with no `=` yields an empty value, as in `URLSearchParams`). -/
def splitKV (p : Str) : Str × Str :=
  let k := p.takeWhile (fun c => c ≠ '=')
  (k, p.drop (k.length + 1))

/-- Parse a query string (without the leading `?`) the way `URLSearchParams`
does: split on `&`, drop empty pieces, split each piece at the first `=`. -/
def parseQuery (qs : Str) : List (Str × Str) :=
  ((qs.splitOn '&').filter (fun p => p ≠ [])).map splitKV

/-- Default port of a scheme (`http` 80, `https` 443). -/
def defaultPort (scheme : Str) : Nat :=
  if scheme = "http".toList then 80 else 443

/-- Model of `new URL(s)` on the fragment of URL syntax described above;
`none` models a thrown `TypeError`. -/
def parseUrl (s : Str) : Option UrlParts :=
  let schemeRest : Option (Str × Str) :=
    if startsWithCI s ("https://".toList) then some ("https".toList, s.drop 8)
    else if startsWithCI s ("http://".toList) then some ("http".toList, s.drop 7)
    else none
  match schemeRest with
  | none => none
  | some (scheme, rest) =>
    let auth := rest.takeWhile (fun c => c ≠ '/' && c ≠ '?' && c ≠ '#')
    let tail := rest.drop auth.length
    let hostRaw := auth.takeWhile (fun c => c ≠ ':')
    let portRaw := auth.drop (hostRaw.length + 1)
    if hostRaw = [] then none
    else if !(hostRaw.all isHostChar) then none
    else
      let host := hostRaw.map Char.toLower
      let port? : Option (Option Nat) :=
        if portRaw = [] then some none
        else if portRaw.all Char.isDigit then
          let n := Nat.ofDigits 10 ((portRaw.map (fun c => c.toNat - 48)).reverse)
          if n > 65535 then none
          else if n = defaultPort scheme then some none
          else some (some n)
        else none
      match port? with
      | none => none
      | some port =>
        let path := tail.takeWhile (fun c => c ≠ '?' && c ≠ '#')
        let afterPath := tail.drop path.length
        let query :=
          if afterPath.headD ' ' = '?' then
            parseQuery ((afterPath.drop 1).takeWhile (fun c => c ≠ '#'))
          else []
        let frag : Option Str :=
          let f := afterPath.dropWhile (fun c => c ≠ '#')
          if f = [] then none else some (f.drop 1)
        some ⟨scheme, host, port, path, query, frag⟩

/-- Decimal digits of a number, for serializing a port. -/
def natDigits (n : Nat) : Str := (toString n).toList

/-- Join serialized `key=value` pairs with `&` (`URLSearchParams` rewrites the
query in this form whenever `delete` runs its update steps, which
`normalizeUrl` always triggers). -/
def joinParams : List (Str × Str) → Str
  | [] => []
  | [(k, v)] => k ++ '=' :: v
  | (k, v) :: p :: ps => k ++ '=' :: v ++ '&' :: joinParams (p :: ps)

/-- Model of `u.href`: serialize the URL (empty path serializes as `/`). -/
def urlHref (u : UrlParts) : Str :=
  u.scheme ++ "://".toList ++ u.host ++
    (match u.port with
     | none => []
     | some p => ':' :: natDigits p) ++
    (if u.path = [] then "/".toList else u.path) ++
    (if u.query = [] then [] else '?' :: joinParams u.query) ++
    (match u.fragment with
     | none => []
     | some f => '#' :: f)

/-- The `TRACKING_PARAMS` deny-list. -/
def TRACKING_PARAMS : List Str :=
  ["utm_source".toList, "utm_medium".toList, "utm_campaign".toList,
   "utm_content".toList, "utm_term".toList, "fbclid".toList, "igshid".toList,
   "ref".toList, "s".toList, "t".toList, "_ga".toList, "_gl".toList,
   "gclid".toList, "msclkid".toList]

/-- The `normalized.replace(/^(https?:\/\/)www\./i, '$1')`: drop a `www.` right
after the scheme separator, keeping the scheme text. -/
def stripWww (n : Str) : Str :=
  if startsWithCI n ("http://www.".toList) then n.take 7 ++ n.drop 11
  else if startsWithCI n ("https://www.".toList) then n.take 8 ++ n.drop 12
  else n

/-- The `s.replace(pat, rep)` for a plain case-insensitive pattern: replace the
first (leftmost) occurrence only. -/
def replaceFirstCI : Str → Str → Str → Str
  | [], _, _ => []
  | c :: rest, pat, rep =>
    if startsWithCI (c :: rest) pat then rep ++ (c :: rest).drop pat.length
    else c :: replaceFirstCI rest pat rep

/-- The `normalizeUrl(url)` from `src/kb/dedupe.ts` lines 271-309. -/
def normalizeUrl (url : Str) : Str :=
  let n0 := jsTrim url
  let n1 := if hasHttpScheme n0 then n0 else "https://".toList ++ n0
  match parseUrl n1 with
  | none => url
  | some u =>
    let u' := { u with
      query := u.query.filter (fun p => ¬ TRACKING_PARAMS.contains p.1) }
    let n2 := urlHref u'
    let n3 := stripWww n2
    let n4 := replaceFirstCI n3 ("://x.com/".toList) ("://twitter.com/".toList)
    let n5 := if n4.getLast? = some '/' then n4.dropLast else n4
    n5.takeWhile (fun c => c ≠ '#')

/-! ## Quality gate (`src/kb/quality.ts`) -/

/-- The six source types. -/
inductive SourceType where
  | article | video | pdf | text | tweet | other
  deriving DecidableEq

/-- The `ERROR_PATTERNS` from `src/kb/quality.ts`. -/
def ERROR_PATTERNS : List Str :=
  ["access denied".toList, "captcha".toList,
   "please enable javascript".toList, "cloudflare".toList, "404".toList,
   "not found".toList, "sign in".toList, "blocked".toList,
   "rate limit".toList, "subscribe to continue".toList,
   "login required".toList, "authorization required".toList,
   "page not found".toList]

/-- The `MIN_LENGTHS` per source type (every entry is nonzero, so the `|| 100`
fallback in the source is unreachable). -/
def MIN_LENGTHS : SourceType → Nat
  | .article => 500
  | .video => 100
  | .pdf => 100
  | .text => 20
  | .tweet => 20
  | .other => 100

/-- The `MAX_CONTENT_LENGTH`. -/
def MAX_CONTENT_LENGTH : Nat := 200000

/-- The `String.prototype.includes(needle)`. -/
def includesSub : Str → Str → Bool
  | hay, needle =>
    needle.isPrefixOf hay ||
      match hay with
      | [] => false
      | _ :: t => includesSub t needle

/-- The `String.prototype.toLowerCase()` (ASCII). -/
def toLowerCase (s : Str) : Str := s.map Char.toLower

/-- Outcome of `validateContent`, with the structured reason distinguished by
constructor: `{valid: false, reason: ...}` for the three rejections,
`{valid: true, truncated}` for acceptance. -/
inductive ValidationResult where
  | tooShort
  | errorPage (signals : List Str)
  | lowQuality
  | ok (truncated : Bool)
  deriving DecidableEq

/-- The `validateContent(content, type)` from `src/kb/quality.ts` lines 46-90.
The float comparison `ratio < 0.15` on `ratio = long/total` is expressed as
the exact rational inequality `20 * long < 3 * total`. -/
def validateContent (content : Str) (type : SourceType) : ValidationResult :=
  let minLength := MIN_LENGTHS type
  if content.length < minLength then .tooShort
  else
    let lower := toLowerCase content
    let errorSignals := ERROR_PATTERNS.filter (fun p => includesSub lower p)
    if 2 ≤ errorSignals.length then .errorPage (errorSignals.take 2)
    else if type ≠ .tweet ∧ type ≠ .text then
      let lines := (content.splitOn '\n').filter (fun l => 0 < (jsTrim l).length)
      if 10 < lines.length then
        let longLines := lines.filter (fun l => 80 < l.length)
        if 20 * longLines.length < 3 * lines.length then .lowQuality
        else .ok (MAX_CONTENT_LENGTH < content.length)
      else .ok (MAX_CONTENT_LENGTH < content.length)
    else .ok (MAX_CONTENT_LENGTH < content.length)

/-! ## Cross-process lock (`src/kb/locks.ts`) -/

/-- The `STALE_AGE_MS = 15 * 60 * 1000`. -/
def STALE_AGE_MS : Int := 15 * 60 * 1000

/-- Contents and modification time of an `<operation>.lock` file. -/
structure LockFile where
  mtimeMs : Int
  pid : Nat
  deriving DecidableEq

/-- Result of `KBLock.acquire`: either it returns a release handle, or it
propagates a thrown "already locked" error. -/
inductive AcquireResult where
  | acquired
  | alreadyLocked
  deriving DecidableEq

/-- The `KBLock.acquire(operation)` from `src/kb/locks.ts` lines 59-96, acting on
the lock file of the given operation.  `now` is `Date.now()`, `selfPid` the
acquiring process id, `alive p` whether `process.kill(p, 0)` succeeds.

Control-flow note, traced from the source: when the holder is alive the code
executes `throw new Error('Lock file exists and process ... is still
running')` *inside* the `try` block whose `catch` performs
`fs.unlinkSync(lockFile)`; the catch therefore swallows that throw exactly as
it swallows the `process.kill` failure for a dead holder, and both branches
fall through to `fs.writeFileSync(lockFile, pid)`. -/
def KBLock.acquire (now : Int) (selfPid : Nat) (alive : Nat → Bool)
    (lock : Option LockFile) : AcquireResult × Option LockFile :=
  match lock with
  | none => (.acquired, some ⟨now, selfPid⟩)
  | some lf =>
    if now - lf.mtimeMs > STALE_AGE_MS then
      (.acquired, some ⟨now, selfPid⟩)
    else
      if alive lf.pid then
        (.acquired, some ⟨now, selfPid⟩)
      else
        (.acquired, some ⟨now, selfPid⟩)

/-- What the spec (and the thrown error message) prescribe for `acquire`:
fail without touching the file when the holder is alive and the lock fresh. -/
def KBLock.acquireSpec (now : Int) (selfPid : Nat) (alive : Nat → Bool)
    (lock : Option LockFile) : AcquireResult × Option LockFile :=
  match lock with
  | none => (.acquired, some ⟨now, selfPid⟩)
  | some lf =>
    if now - lf.mtimeMs > STALE_AGE_MS then
      (.acquired, some ⟨now, selfPid⟩)
    else if alive lf.pid then
      (.alreadyLocked, some lf)
    else
      (.acquired, some ⟨now, selfPid⟩)

/-! ## Embedding serialization (`src/kb/embeddings.ts`)

`serializeFloat32`/`deserializeFloat32` reinterpret bytes without touching
float values, and both only ever produce or consume byte offsets and lengths
that are multiples of 4, so the backing `ArrayBuffer` is modelled as a list of
opaque 32-bit words (one per float bit pattern) with byte counts kept as
`4 × word` counts. -/

/-- A `Float32Array` view: backing buffer of 32-bit words, view offset (in
words: `byteOffset / 4`) and element count. -/
structure Float32ArrayM where
  buffer : List Nat
  wordOffset : Nat
  length : Nat
  deriving DecidableEq

/-- A Node `Buffer` view over an `ArrayBuffer`. -/
structure BufferM where
  buffer : List Nat
  byteOffset : Nat
  byteLength : Nat
  deriving DecidableEq

/-- The elements visible through a `Float32Array` view. -/
def Float32ArrayM.toWords (a : Float32ArrayM) : List Nat :=
  (a.buffer.drop a.wordOffset).take a.length

/-- The `serializeFloat32(arr) = Buffer.from(arr.buffer)`: a view of the *entire*
backing buffer (offset 0, full byte length), regardless of the view's own
offset and length. -/
def serializeFloat32 (arr : Float32ArrayM) : BufferM :=
  ⟨arr.buffer, 0, 4 * arr.buffer.length⟩

/-- The `deserializeFloat32(buffer) = new Float32Array(buffer.buffer,
buffer.byteOffset, buffer.byteLength / 4)`. -/
def deserializeFloat32 (b : BufferM) : Float32ArrayM :=
  ⟨b.buffer, b.byteOffset / 4, b.byteLength / 4⟩

/-! ## Search engine (`src/kb/search.ts`)

The floating-point similarity arithmetic is modelled in exact real
arithmetic; embedding vectors are lists of reals. -/

/-- The dot-product loop `dotProduct += a[i] * b[i]`. -/
def dotL (a b : List ℝ) : ℝ := (List.zipWith (· * ·) a b).sum

/-- The squared-norm accumulators `normA`, `normB`. -/
def normSqL (a : List ℝ) : ℝ := dotL a a

/-- The `cosineSimilarity(a, b)` from `src/kb/search.ts` lines 191-208. -/
noncomputable def cosineSimilarity (a b : List ℝ) : ℝ :=
  if a.length ≠ b.length then 0
  else
    let magnitude := Real.sqrt (normSqL a) * Real.sqrt (normSqL b)
    if magnitude = 0 then 0 else dotL a b / magnitude

/-- The accelerated path's conversion (line 120):
`similarity = Math.max(0, 1 - (row.distance * row.distance) / 2)`. -/
noncomputable def vssSimilarity (distance : ℝ) : ℝ :=
  max 0 (1 - distance * distance / 2)

/-- Componentwise difference, for Euclidean distances. -/
def subL (a b : List ℝ) : List ℝ := List.zipWith (· - ·) a b

/-- Squared Euclidean distance between two vectors. -/
def sqDist (a b : List ℝ) : ℝ := normSqL (subL a b)

/-- A `kb_chunks` row as read by the search paths (`id`, `source_id`,
`embedding`; source metadata columns carried along unchanged are omitted). -/
structure ChunkRowR where
  id : Nat
  sourceId : Nat
  embedding : Option (List ℝ)

/-- A `SearchResult` (the `content`/url/title pass-through fields are
omitted; `similarity` is the ranking key). -/
structure SearchResultR where
  chunkId : Nat
  sourceId : Nat
  similarity : ℝ

/-- Insert into a descending-sorted list, realising the
`Array.prototype.sort` comparator `(a, b) => b.similarity - a.similarity`;
the relative order of equal similarities is not relied upon by any claim. -/
noncomputable def insertDesc (r : SearchResultR) :
    List SearchResultR → List SearchResultR
  | [] => [r]
  | x :: xs =>
    if x.similarity < r.similarity then r :: x :: xs else x :: insertDesc r xs

/-- Stable sort by descending similarity. -/
noncomputable def sortDesc : List SearchResultR → List SearchResultR
  | [] => []
  | x :: xs => insertDesc x (sortDesc xs)

/-- One step of the `bestBySource` map update: keep the stored entry unless
the new result's similarity is strictly greater
(`if (!existing || r.similarity > existing.similarity)`). -/
noncomputable def upsertBest (r : SearchResultR) :
    List SearchResultR → List SearchResultR
  | [] => [r]
  | x :: xs =>
    if x.sourceId = r.sourceId then
      (if x.similarity < r.similarity then r else x) :: xs
    else x :: upsertBest r xs

/-- The `bestBySource` as an association list in `Map` insertion order. -/
noncomputable def bestBySource (rs : List SearchResultR) : List SearchResultR :=
  rs.foldl (fun acc r => upsertBest r acc) []

/-- The `processAndRankResults(results, limit, dedupeBySource)` from
`src/kb/search.ts` lines 29-52. -/
noncomputable def processAndRankResults (results : List SearchResultR)
    (limit : Nat) (dedupeBySource : Bool) : List SearchResultR :=
  let sorted := sortDesc results
  let finalResults :=
    if dedupeBySource then sortDesc (bestBySource sorted) else sorted
  finalResults.take limit

/-- The `fallbackSearch(queryEmbedding, options)` from `src/kb/search.ts` lines
144-186, over the rows of the `embedding IS NOT NULL` join. -/
noncomputable def fallbackSearch (queryEmbedding : List ℝ)
    (rows : List ChunkRowR) (limit : Nat) (minSimilarity : ℝ)
    (dedupeBySource : Bool) : List SearchResultR :=
  let results := rows.filterMap (fun row =>
    match row.embedding with
    | none => none
    | some e =>
      let similarity := cosineSimilarity queryEmbedding e
      if minSimilarity ≤ similarity then
        some ⟨row.id, row.sourceId, similarity⟩
      else none)
  processAndRankResults results limit dedupeBySource

/-- A row returned by the `kb_chunks_vss` join, with the index's reported
`distance` column. -/
structure VssRowR where
  id : Nat
  sourceId : Nat
  distance : ℝ

/-- Modelled from the spec: the value of the `distance` column that the
accelerated index (the external `sqlite-vss` extension, not part of this
repository's sources) reports for a returned chunk is the *squared* Euclidean
distance between the chunk's stored embedding and the query embedding — the
spec's "convert each reported squared Euclidean distance `d²` on
unit-normalized vectors". -/
def vssReportedDistance (queryEmbedding chunkEmbedding : List ℝ) : ℝ :=
  sqDist queryEmbedding chunkEmbedding

/-- The accelerated branch of `search` (lines 113-133): map each returned row
through `vssSimilarity`, filter by `minSimilarity`, then rank. -/
noncomputable def vssPath (vssRows : List VssRowR) (limit : Nat)
    (minSimilarity : ℝ) (dedupeBySource : Bool) : List SearchResultR :=
  let results :=
    (vssRows.map (fun row =>
      SearchResultR.mk row.id row.sourceId (vssSimilarity row.distance))).filter
      (fun r => minSimilarity ≤ r.similarity)
  processAndRankResults results limit dedupeBySource

/-! ## Storage layer (`src/kb/storage.ts`) -/

/-- A `kb_sources` row (`summary` and the timestamp columns, which no claim
touches, are omitted; the generated string id `kb-<time>-<rand>` is an opaque
unique value, modelled by a counter). -/
structure KBSourceM where
  id : Nat
  url : Option Str
  title : Option Str
  sourceType : SourceType
  rawContent : Str
  contentHash : Str
  tags : Option (List Str)
  deriving DecidableEq

/-- A `kb_chunks` row as written by ingestion (embedding stored as the
serialized buffer; provider/model string constants omitted). -/
structure KBChunkM where
  id : Nat
  sourceId : Nat
  chunkIndex : Nat
  content : Str
  embedding : Option BufferM
  embeddingDim : Option Nat
  deriving DecidableEq

/-- The database state touched by ingestion. -/
structure Store where
  sources : List KBSourceM
  chunks : List KBChunkM
  nextSourceId : Nat
  nextChunkId : Nat
  deriving DecidableEq

/-- The `getSourceByUrl`: `SELECT * FROM kb_sources WHERE url = ?`. -/
def getSourceByUrl (st : Store) (url : Str) : Option KBSourceM :=
  st.sources.find? (fun s => s.url == some url)

/-- The `getSourceByHash`: `SELECT * FROM kb_sources WHERE content_hash = ?`. -/
def getSourceByHash (st : Store) (contentHash : Str) : Option KBSourceM :=
  st.sources.find? (fun s => s.contentHash == contentHash)

/-- The `createSource`: insert a fresh row under a newly generated id. -/
def createSource (st : Store) (url : Option Str) (title : Option Str)
    (sourceType : SourceType) (rawContent : Str) (contentHash : Str)
    (tags : Option (List Str)) : KBSourceM × Store :=
  let src : KBSourceM :=
    ⟨st.nextSourceId, url, title, sourceType, rawContent, contentHash, tags⟩
  (src, { st with sources := st.sources ++ [src],
                  nextSourceId := st.nextSourceId + 1 })

/-- The `updateSource(id, updates)` for the field set passed by
`finishIngestion`: `url`, `title` and `tags` are skipped when `undefined`
(the `updates.x !== undefined` guards), content and hash always set. -/
def updateSource (st : Store) (id : Nat) (url : Option Str)
    (title : Option Str) (rawContent : Str) (contentHash : Str)
    (tags : Option (List Str)) : Store :=
  { st with sources := st.sources.map (fun s =>
      if s.id = id then
        { s with
          url := match url with | some u => some u | none => s.url,
          title := match title with | some t => some t | none => s.title,
          rawContent := rawContent,
          contentHash := contentHash,
          tags := match tags with | some t => some t | none => s.tags }
      else s) }

/-- The `deleteChunksBySourceId`. -/
def deleteChunksBySourceId (st : Store) (sourceId : Nat) : Store :=
  { st with chunks := st.chunks.filter (fun c => c.sourceId ≠ sourceId) }

/-- The `createChunk` (AUTOINCREMENT id). -/
def createChunk (st : Store) (sourceId chunkIndex : Nat) (content : Str)
    (embedding : BufferM) (embeddingDim : Nat) : Store :=
  { st with
    chunks := st.chunks ++
      [⟨st.nextChunkId, sourceId, chunkIndex, content,
        some embedding, some embeddingDim⟩],
    nextChunkId := st.nextChunkId + 1 }

/-! ## Content cleaning and hashing (`src/kb/dedupe.ts`) -/

/-- The global replace of `/\r\n/g` by `\n` (left-to-right, non-overlapping).
-/
def replaceCRLF : Str → Str
  | [] => []
  | '\r' :: '\n' :: rest => '\n' :: replaceCRLF rest
  | c :: rest => c :: replaceCRLF rest

/-- The global replace of `/\n{3,}/g` by two newlines: keep at most the first
two newlines of every maximal newline run.  `seen` counts the consecutive
newlines emitted so far. -/
def collapseNewlines (seen : Nat) : Str → Str
  | [] => []
  | '\n' :: rest =>
    if seen < 2 then '\n' :: collapseNewlines (seen + 1) rest
    else collapseNewlines seen rest
  | c :: rest => c :: collapseNewlines 0 rest

/-- The `cleanContent(content)` from `src/kb/dedupe.ts` lines 331-337. -/
def cleanContent (content : Str) : Str :=
  jsTrim (collapseNewlines 0
    ((replaceCRLF content).map (fun c => if c = '\r' then '\n' else c)))

/-- The `generateContentHash(content) = sha256(content.trim())`, with the
external crypto digest primitive passed in as `sha256`. -/
def generateContentHash (sha256 : Str → Str) (content : Str) : Str :=
  sha256 (jsTrim content)

/-! ## Source-type detection (`src/kb/ingest.ts` lines 297-323) -/

/-- Characters of the regex class `\w`. -/
def isWordChar (c : Char) : Bool := c.isAlphanum || c == '_'

/-- Drop a case-insensitive literal pattern from the front, if present. -/
def dropCI (s pat : Str) : Option Str :=
  if startsWithCI s pat then some (s.drop pat.length) else none

/-- Consume the optional `(?:https?:\/\/)?` and `(?:www\.)?` prefixes. -/
def dropSchemeWww (u : Str) : Str :=
  let r := match dropCI u ("https://".toList) with
    | some x => x
    | none => match dropCI u ("http://".toList) with
      | some x => x
      | none => u
  match dropCI r ("www.".toList) with
  | some x => x
  | none => r

/-- The tweet-URL test
`/^(?:https?:\/\/)?(?:www\.)?(?:twitter|x)\.com\/[\w]+\/status\/[\d]+/i`. -/
def matchTweetUrl (u : Str) : Bool :=
  let r := dropSchemeWww u
  let r? := match dropCI r ("twitter.com/".toList) with
    | some x => some x
    | none => dropCI r ("x.com/".toList)
  match r? with
  | none => false
  | some r =>
    let user := r.takeWhile isWordChar
    if user = [] then false
    else
      match dropCI (r.drop user.length) ("/status/".toList) with
      | none => false
      | some r2 => (r2.takeWhile Char.isDigit) ≠ []

/-- The video-URL test
`/^(?:https?:\/\/)?(?:www\.)?(?:youtube\.com\/watch\?v=|youtu\.be\/)[\w-]+/i`.
-/
def matchVideoUrl (u : Str) : Bool :=
  let r := dropSchemeWww u
  let r? := match dropCI r ("youtube.com/watch?v=".toList) with
    | some x => some x
    | none => dropCI r ("youtu.be/".toList)
  match r? with
  | none => false
  | some r => (r.takeWhile (fun c => isWordChar c || c == '-')) ≠ []

/-- The PDF test `/\.pdf$/i`. -/
def endsWithPdf (u : Str) : Bool :=
  4 ≤ u.length && (u.drop (u.length - 4)).map Char.toLower == ".pdf".toList

/-- The `detectSourceType(url)`. -/
def detectSourceType (url : Str) : SourceType :=
  if matchTweetUrl url then .tweet
  else if matchVideoUrl url then .video
  else if endsWithPdf url then .pdf
  else .article

/-! ## Ingestion orchestrator (`src/kb/ingest.ts`)

External collaborators are passed in as an environment: the extractor and the
embedding batch call are network-facing and may also throw (an `Except.error`
models a thrown exception reaching the `catch (err)` of the internals), and
the SHA-256 digest is an opaque crypto primitive.  The process-wide
`setAvailable(true)` flag flip has no observable effect in this model and is
not represented.  The third component of each internal's result records
whether the `ingest` lock file is still held by the call after it returns:
`KBLock.acquire` (which, as embedded above, always succeeds) creates the lock
file, and the `finally { release(); }` clause deletes it on every exit path,
which the `false` in the final tuple mirrors. -/

/-- The `ExtractedContent` (`title`, `content`; the optional echo of the url is
unused by ingestion). -/
structure ExtractedContentM where
  title : Str
  content : Str

/-- The `IngestOptions`. -/
structure IngestOptionsM where
  url : Option Str := none
  title : Option Str := none
  sourceType : Option SourceType := none
  tags : Option (List Str) := none

/-- Structured failure reasons. -/
inductive IngestReason where
  | duplicateUrl | duplicateHash | extractionFailed | validationFailed
  | unknown
  deriving DecidableEq

/-- The `IngestResult` (the free-text `error` message is not modelled). -/
structure IngestResultM where
  success : Bool
  reason : Option IngestReason := none
  sourceId : Option Nat := none
  chunksCount : Option Nat := none
  existingSourceId : Option Nat := none
  updated : Option Bool := none
  deriving DecidableEq

/-- External collaborators of the ingestion pipeline. -/
structure IngestEnv where
  extract : Str → SourceType → Except Str (Option ExtractedContentM)
  embedBatch : List Str → Except Str (List (Option Float32ArrayM))
  sha256 : Str → Str

/-- The chunk-storing loop of `finishIngestion` (lines 239-254): store only
chunks whose embedding succeeded, counting the stored ones. -/
def storeChunks (sourceId : Nat)
    (items : List (Nat × Str × Option Float32ArrayM)) (st : Store) :
    Nat × Store :=
  items.foldl
    (fun acc it =>
      match it.2.2 with
      | none => acc
      | some emb =>
        (acc.1 + 1,
         createChunk acc.2 sourceId it.1 it.2.1 (serializeFloat32 emb)
           emb.length))
    (0, st)

/-- The `finishIngestion(params)` from `src/kb/ingest.ts` lines 170-270, with the
chunking configuration `config.KB_CHUNK_SIZE = 800`,
`config.KB_CHUNK_OVERLAP = 200`, `config.KB_MIN_CHUNK = 50`. -/
def finishIngestion (env : IngestEnv) (url : Option Str)
    (title : Option Str) (content : Str) (sourceType : SourceType)
    (tags : Option (List Str)) (existingSource : Option KBSourceM)
    (st : Store) : Except Str IngestResultM × Store :=
  let cleanedContent := cleanContent content
  match validateContent cleanedContent sourceType with
  | .tooShort =>
    (.ok { success := false, reason := some .validationFailed }, st)
  | .errorPage _ =>
    (.ok { success := false, reason := some .validationFailed }, st)
  | .lowQuality =>
    (.ok { success := false, reason := some .validationFailed }, st)
  | .ok truncated =>
    let finalContent :=
      if truncated then cleanedContent.take MAX_CONTENT_LENGTH
      else cleanedContent
    let contentHash := generateContentHash env.sha256 finalContent
    let dupHash : Option KBSourceM :=
      match existingSource with
      | some _ => none
      | none => getSourceByHash st contentHash
    match dupHash with
    | some existingByHash =>
      (.ok { success := false, reason := some .duplicateHash,
             existingSourceId := some existingByHash.id }, st)
    | none =>
      let srcSt : KBSourceM × Store :=
        match existingSource with
        | some ex =>
          ({ ex with
             url := match url with | some u => some u | none => ex.url,
             title := match title with | some t => some t | none => ex.title,
             rawContent := finalContent,
             contentHash := contentHash,
             tags := match tags with | some t => some t | none => ex.tags },
           updateSource st ex.id url title finalContent contentHash tags)
        | none =>
          let t := match title with
            | some t => if t = [] then "Untitled".toList else t
            | none => "Untitled".toList
          createSource st url (some t) sourceType finalContent contentHash tags
      let source := srcSt.1
      let st1 := srcSt.2
      let chunks := chunkText finalContent 800 200 50
      match env.embedBatch chunks with
      | .error e => (.error e, st1)
      | .ok embeddings =>
        let items := (List.range chunks.length).map
          (fun i => (i, chunks.getD i [], embeddings.getD i none))
        let stored := storeChunks source.id items st1
        (.ok { success := true, sourceId := some source.id,
               chunksCount := some stored.1,
               updated := some existingSource.isSome },
         stored.2)

/-- Lines 78-94 of `ingestUrlInternal`: source-type detection, extraction,
and the hand-off to `finishIngestion`. -/
def ingestUrlRest (env : IngestEnv) (url : Str) (options : IngestOptionsM)
    (existingSource : Option KBSourceM) (normalizedUrl : Str)
    (st : Store) : Except Str IngestResultM × Store :=
  let sourceType := match options.sourceType with
    | some t => t
    | none => detectSourceType url
  match env.extract url sourceType with
  | .error e => (.error e, st)
  | .ok none =>
    (.ok { success := false, reason := some .extractionFailed }, st)
  | .ok (some extracted) =>
    finishIngestion env (some normalizedUrl) (some extracted.title)
      extracted.content sourceType options.tags existingSource st

/-- The `try` block of `ingestUrlInternal` (lines 63-94). -/
def ingestUrlTry (env : IngestEnv) (url : Str) (options : IngestOptionsM)
    (forceUpdate : Bool) (st : Store) : Except Str IngestResultM × Store :=
  let normalizedUrl := normalizeUrl url
  let existingByUrl := getSourceByUrl st normalizedUrl
  match existingByUrl with
  | some existing =>
    if forceUpdate then
      let st1 := deleteChunksBySourceId st existing.id
      ingestUrlRest env url options (some existing) normalizedUrl st1
    else
      (.ok { success := false, reason := some .duplicateUrl,
             existingSourceId := some existing.id }, st)
  | none => ingestUrlRest env url options none normalizedUrl st

/-- The `ingestUrlInternal(url, options, forceUpdate)`: the `try` body, the
`catch (err)` mapping a thrown error to the `unknown` outcome, and the
`finally { release(); }` clearing the lock file (third component). -/
def ingestUrlInternal (env : IngestEnv) (url : Str)
    (options : IngestOptionsM) (forceUpdate : Bool) (st : Store) :
    IngestResultM × Store × Bool :=
  let tryRes := ingestUrlTry env url options forceUpdate st
  let caught : IngestResultM × Store :=
    match tryRes with
    | (.ok r, st') => (r, st')
    | (.error _, st') => ({ success := false, reason := some .unknown }, st')
  (caught.1, caught.2, false)

/-- The `try` block of `ingestContentInternal` (lines 136-158).  The
`if (url)` truthiness guard skips the duplicate check for an absent *or
empty* url, and `url ? normalizeUrl(url) : undefined` passes the normalized
url on under the same condition. -/
def ingestContentTry (env : IngestEnv) (content : Str)
    (options : IngestOptionsM) (forceUpdate : Bool) (st : Store) :
    Except Str IngestResultM × Store :=
  let sourceType := (options.sourceType).getD .text
  let urlTruthy : Option Str :=
    match options.url with
    | some u => if u = [] then none else some u
    | none => none
  match urlTruthy with
  | some u =>
    let normalizedUrl := normalizeUrl u
    match getSourceByUrl st normalizedUrl with
    | some existing =>
      if forceUpdate then
        let st1 := deleteChunksBySourceId st existing.id
        finishIngestion env (some normalizedUrl) options.title content
          sourceType options.tags (some existing) st1
      else
        (.ok { success := false, reason := some .duplicateUrl,
               existingSourceId := some existing.id }, st)
    | none =>
      finishIngestion env (some normalizedUrl) options.title content
        sourceType options.tags none st
  | none =>
    finishIngestion env none options.title content sourceType options.tags
      none st

/-- The `ingestContentInternal(content, options, forceUpdate)` with its
`catch`/`finally` structure, as for `ingestUrlInternal`. -/
def ingestContentInternal (env : IngestEnv) (content : Str)
    (options : IngestOptionsM) (forceUpdate : Bool) (st : Store) :
    IngestResultM × Store × Bool :=
  let tryRes := ingestContentTry env content options forceUpdate st
  let caught : IngestResultM × Store :=
    match tryRes with
    | (.ok r, st') => (r, st')
    | (.error _, st') => ({ success := false, reason := some .unknown }, st')
  (caught.1, caught.2, false)

/-- The `ingestUrl(url, options)`. -/
def ingestUrl (env : IngestEnv) (url : Str) (options : IngestOptionsM)
    (st : Store) : IngestResultM × Store × Bool :=
  ingestUrlInternal env url options false st

/-- The `updateUrl(url, options)`. -/
def updateUrl (env : IngestEnv) (url : Str) (options : IngestOptionsM)
    (st : Store) : IngestResultM × Store × Bool :=
  ingestUrlInternal env url options true st

/-- The `ingestContent(content, options)`. -/
def ingestContent (env : IngestEnv) (content : Str)
    (options : IngestOptionsM) (st : Store) : IngestResultM × Store × Bool :=
  ingestContentInternal env content options false st

/-- The `updateContent(content, options)`. -/
def updateContent (env : IngestEnv) (content : Str)
    (options : IngestOptionsM) (st : Store) : IngestResultM × Store × Bool :=
  ingestContentInternal env content options true st

/-! ## Predicates and fixtures used by the theorems -/

/-- Whether a validation outcome is the error-page rejection. -/
def ValidationResult.isErrorPage : ValidationResult → Bool
  | .errorPage _ => true
  | _ => false

/-- Results listed in descending order of similarity. -/
def SortedDescSim (l : List SearchResultR) : Prop :=
  l.Pairwise (fun a b => b.similarity ≤ a.similarity)

/-- The chunks a `minSimilarity = 0` fallback search is meant to return: every
row with an embedding whose cosine similarity to the query is nonnegative,
scored. -/
noncomputable def embeddedNonneg (queryEmbedding : List ℝ)
    (rows : List ChunkRowR) : List SearchResultR :=
  rows.filterMap (fun row =>
    match row.embedding with
    | none => none
    | some e =>
      let similarity := cosineSimilarity queryEmbedding e
      if (0 : ℝ) ≤ similarity then
        some ⟨row.id, row.sourceId, similarity⟩
      else none)

/-- Concrete external environment for witnesses: extractor finds nothing,
embedding batch returns no vectors, digest is constant. -/
def envW : IngestEnv :=
  ⟨fun _ _ => .ok none, fun _ => .ok [], fun _ => []⟩

/-- Concrete stored source for witnesses, holding a normalized url. -/
def exW : KBSourceM :=
  ⟨0, some ("https://example.com".toList), none, .article,
   "stored content".toList, "h0".toList, none⟩

/-- Concrete store for witnesses: exactly the source `exW`. -/
def stW : Store := ⟨[exW], [], 1, 1⟩

/-! # Theorems -/

/-! ## C10: serialization round-trip -/

/-- C10: for every `Float32Array` that spans its entire backing buffer (byte
offset 0, byte length equal to the buffer's), deserializing the serialization
yields a view with the same length and the same components. -/
theorem serializeFloat32_roundtrip (v : Float32ArrayM)
    (h0 : v.wordOffset = 0) (hl : v.length = v.buffer.length) :
    (deserializeFloat32 (serializeFloat32 v)).length = v.length ∧
    (deserializeFloat32 (serializeFloat32 v)).toWords = v.toWords := by
  obtain ⟨buf, off, len⟩ := v
  simp only at h0 hl
  subst h0 hl
  refine ⟨?_, ?_⟩
  · show 4 * buf.length / 4 = buf.length
    omega
  · show (buf.drop (0 / 4)).take (4 * buf.length / 4) =
      (buf.drop 0).take buf.length
    have : 4 * buf.length / 4 = buf.length := by omega
    simp [this]

/-- Witness for C10 at a concrete three-element view. -/
theorem serializeFloat32_roundtrip_witness :
    (Float32ArrayM.mk [10, 20, 30] 0 3).wordOffset = 0 ∧
    (Float32ArrayM.mk [10, 20, 30] 0 3).length =
      (Float32ArrayM.mk [10, 20, 30] 0 3).buffer.length ∧
    (deserializeFloat32 (serializeFloat32 (Float32ArrayM.mk [10, 20, 30] 0 3))).toWords =
      (Float32ArrayM.mk [10, 20, 30] 0 3).toWords :=
  ⟨rfl, rfl, (serializeFloat32_roundtrip _ rfl rfl).2⟩

/-! ## C1: lock acquisition against a live holder -/

/-- C1 (evaluation at the failing input): with a fresh lock file (age 0)
whose recorded process 7 is alive, a second acquire by process 42 *succeeds*
and replaces the lock file with its own — the deliberate `throw` is swallowed
by the `catch` that was meant for the dead-process probe — whereas the
specified behaviour (`KBLock.acquireSpec`) fails with the already-locked
condition and leaves the file untouched. -/
theorem acquire_live_holder_diverges :
    KBLock.acquire 1000 42 (fun _ => true) (some ⟨1000, 7⟩) =
      (.acquired, some ⟨1000, 42⟩) ∧
    KBLock.acquireSpec 1000 42 (fun _ => true) (some ⟨1000, 7⟩) =
      (.alreadyLocked, some ⟨1000, 7⟩) := by
  constructor <;> decide

/-! ## C9: the ingest lock is released on every path -/

/-- C9: each public ingestion entry point releases the `ingest` lock before
returning, on every path — success, every structured failure outcome, and the
catch-all `unknown` outcome (the `Except.error` cases of the environment). -/
theorem ingest_always_releases_lock (env : IngestEnv) (url content : Str)
    (options : IngestOptionsM) (st : Store) :
    (ingestUrl env url options st).2.2 = false ∧
    (updateUrl env url options st).2.2 = false ∧
    (ingestContent env content options st).2.2 = false ∧
    (updateContent env content options st).2.2 = false :=
  ⟨rfl, rfl, rfl, rfl⟩

/-! ## C6: duplicate-url ingestion -/

/-- C6: when a stored source already carries the normalized form of the
requested (nonempty) URL, a second non-update ingestion — by URL or by
content with that URL attached — fails with the `duplicate_url` reason
carrying the existing source's id, and returns the store unchanged: no row
created, no row mutated (and the lock is released). -/
theorem ingest_duplicate_url_fails (env : IngestEnv) (u content : Str)
    (options : IngestOptionsM) (st : Store) (ex : KBSourceM)
    (h : getSourceByUrl st (normalizeUrl u) = some ex) (hu : u ≠ []) :
    ingestUrl env u options st =
      ({ success := false, reason := some .duplicateUrl,
         existingSourceId := some ex.id }, st, false) ∧
    ingestContent env content { options with url := some u } st =
      ({ success := false, reason := some .duplicateUrl,
         existingSourceId := some ex.id }, st, false) := by
  constructor
  · simp [ingestUrl, ingestUrlInternal, ingestUrlTry, h]
  · simp [ingestContent, ingestContentInternal, ingestContentTry, h, hu]

/-- Witness for C6: the fixture store `stW` holds `exW` under the normalized
url, so re-ingesting `https://example.com` fails with `duplicate_url` for
source 0 and leaves the store unchanged. -/
theorem ingest_duplicate_url_fails_witness :
    getSourceByUrl stW (normalizeUrl ("https://example.com".toList)) =
      some exW ∧
    ingestUrl envW ("https://example.com".toList) {} stW =
      ({ success := false, reason := some .duplicateUrl,
         existingSourceId := some exW.id }, stW, false) :=
  ⟨by decide,
   (ingest_duplicate_url_fails envW ("https://example.com".toList) []
     {} stW exW (by decide) (by decide)).1⟩

/-! ## C3: chunk coverage and the tiny remainder -/

/-- C3 (evaluation at the failing input): chunking 850 copies of `x` with the
chunker's own default options (`chunkSize 800, overlap 200, minChunk 100`)
returns a single 800-character chunk.  The final 50-character remainder —
shorter than `minChunk` — is discarded by the in-loop minimum-size filter and
is *not* appended to the previous chunk: after the loop `position` always
equals `text.length`, so the remainder-append block (source lines 63-70) is
unreachable.  The concatenated output covers only 800 of the 850 input
characters. -/
theorem chunkText_drops_short_remainder :
    chunkText (List.replicate 850 'x') 800 200 100 =
      [List.replicate 800 'x'] ∧
    ((chunkText (List.replicate 850 'x') 800 200 100).map
      List.length).sum = 800 ∧
    800 < (List.replicate 850 'x').length := by
  refine ⟨by decide, by decide, by decide⟩

/-! ## C4: totality and idempotency of `normalizeUrl` -/

/-- C4 (evaluation at the failing input): `normalizeUrl` strips the trailing
slash *before* removing the fragment, so for a fragment-bearing URL whose
pre-fragment text ends in `/` the first pass leaves that slash behind and a
second pass removes it — the function is not idempotent. -/
theorem normalizeUrl_not_idempotent :
    normalizeUrl ("https://example.com/#f".toList) =
      "https://example.com/".toList ∧
    normalizeUrl ("https://example.com/".toList) =
      "https://example.com".toList ∧
    normalizeUrl (normalizeUrl ("https://example.com/#f".toList)) ≠
      normalizeUrl ("https://example.com/#f".toList) := by
  refine ⟨by decide, by decide, by decide⟩

/-! ## C8: the two-signal error-page rule -/

/-- C8: for content meeting its source type's minimum length,
`validateContent` rejects with the error-page reason exactly when at least
two distinct phrases of `ERROR_PATTERNS` occur in the lowercased content as
substrings; a single matching phrase never triggers that rejection. -/
theorem validateContent_errorPage_iff (content : Str) (type : SourceType)
    (h : MIN_LENGTHS type ≤ content.length) :
    ((validateContent content type).isErrorPage = true ↔
      2 ≤ (ERROR_PATTERNS.filter
        (fun p => includesSub (toLowerCase content) p)).length) ∧
    ((ERROR_PATTERNS.filter
        (fun p => includesSub (toLowerCase content) p)).length = 1 →
      (validateContent content type).isErrorPage = false) := by
  have hlen : ¬ content.length < MIN_LENGTHS type := Nat.not_lt.mpr h
  simp only [validateContent, if_neg hlen]
  by_cases hs : 2 ≤ (ERROR_PATTERNS.filter
      (fun p => includesSub (toLowerCase content) p)).length
  · rw [if_pos hs]
    exact ⟨⟨fun _ => hs, fun _ => rfl⟩, fun h1 => absurd hs (by omega)⟩
  · rw [if_neg hs]
    have hfe : (if type ≠ SourceType.tweet ∧ type ≠ SourceType.text then
        (let lines := (content.splitOn '\n').filter
          (fun l => 0 < (jsTrim l).length)
         if 10 < lines.length then
           (let longLines := lines.filter (fun l => 80 < l.length)
            if 20 * longLines.length < 3 * lines.length then
              ValidationResult.lowQuality
            else .ok (MAX_CONTENT_LENGTH < content.length))
         else .ok (MAX_CONTENT_LENGTH < content.length))
        else .ok (MAX_CONTENT_LENGTH < content.length)).isErrorPage =
        false := by
      dsimp only
      split_ifs <;> rfl
    refine ⟨?_, fun _ => hfe⟩
    rw [hfe]
    exact ⟨fun he => absurd he (by decide), fun hge => absurd hge hs⟩

/-- Witness for C8: a 41-character `text` note containing the phrases
`sign in` and `access denied` (and no other signal) is rejected as an error
page. -/
theorem validateContent_errorPage_iff_witness :
    MIN_LENGTHS SourceType.text ≤
      ("please Sign In here, access denied today".toList).length ∧
    (validateContent ("please Sign In here, access denied today".toList)
      SourceType.text).isErrorPage = true :=
  ⟨by decide,
   (validateContent_errorPage_iff
     ("please Sign In here, access denied today".toList)
     SourceType.text (by decide)).1.mpr (by decide)⟩

/-! ## C7: which boundary in the window the chunker cuts at -/

theorem zipTail_length (w : Str) : (w.zip w.tail).length = w.length - 1 := by
  simp [List.length_zip]

theorem boundaryPair_getElem_iff (w : Str) (m : Nat)
    (hm : m < (w.zip w.tail).length) :
    boundaryPair ((w.zip w.tail)[m]) = true ↔ SBstart w (m + 1) := by
  have hz := zipTail_length w
  have hm1 : m + 1 < w.length := by omega
  have hm0 : m < w.length := by omega
  have hget : (w.zip w.tail)[m] = (w.get ⟨m, hm0⟩, w.get ⟨m + 1, hm1⟩) := by
    simp [List.getElem_zip]
  rw [hget]
  unfold boundaryPair SBstart
  rw [Bool.and_eq_true]
  constructor
  · rintro ⟨hp, hw⟩
    refine ⟨by omega, hm1, ?_, ?_⟩
    · rw [Nat.add_sub_cancel, List.getD_eq_getElem _ _ hm0]
      exact hp
    · rw [List.getD_eq_getElem _ _ hm1]
      exact hw
  · rintro ⟨-, -, hp, hw⟩
    rw [Nat.add_sub_cancel, List.getD_eq_getElem _ _ hm0] at hp
    rw [List.getD_eq_getElem _ _ hm1] at hw
    exact ⟨hp, hw⟩

theorem firstSB_eq_some_iff (w : Str) (i : Nat) :
    firstSB w = some i ↔ SBstart w i ∧ ∀ j < i, ¬ SBstart w j := by
  unfold firstSB
  rw [Option.map_eq_some']
  constructor
  · rintro ⟨m, hfind, rfl⟩
    rw [List.findIdx?_eq_some_iff_getElem] at hfind
    obtain ⟨hm, hbp, hmin⟩ := hfind
    refine ⟨(boundaryPair_getElem_iff w m hm).mp hbp, ?_⟩
    intro j hj hSB
    rcases j with _ | j'
    · exact absurd hSB.1 (by omega)
    · have hj' : j' < m := by omega
      have hjz : j' < (w.zip w.tail).length := by omega
      have hbp' : boundaryPair ((w.zip w.tail).get ⟨j', hjz⟩) = true := by
        rw [List.get_eq_getElem]
        exact (boundaryPair_getElem_iff w j' hjz).mpr hSB
      rw [List.get_eq_getElem] at hbp'
      exact hmin j' hj' hbp'
  · rintro ⟨hSB, hmin⟩
    have hi1 : 1 ≤ i := hSB.1
    have hilen : i < w.length := hSB.2.1
    have hzl : i - 1 < (w.zip w.tail).length := by
      rw [zipTail_length]; omega
    refine ⟨i - 1, ?_, by omega⟩
    rw [List.findIdx?_eq_some_iff_getElem]
    refine ⟨hzl, ?_, ?_⟩
    · apply (boundaryPair_getElem_iff w (i - 1) hzl).mpr
      have : i - 1 + 1 = i := by omega
      rw [this]
      exact hSB
    · intro k hk hbpk
      have hkz : k < (w.zip w.tail).length := by omega
      exact hmin (k + 1) (by omega)
        ((boundaryPair_getElem_iff w k hkz).mp hbpk)

theorem firstSB_eq_none_iff (w : Str) :
    firstSB w = none ↔ ∀ i, ¬ SBstart w i := by
  unfold firstSB
  rw [Option.map_eq_none', List.findIdx?_eq_none_iff]
  constructor
  · intro hall i hSB
    rcases i with _ | m
    · exact absurd hSB.1 (by omega)
    · have hm : m < (w.zip w.tail).length := by
        rw [zipTail_length]
        have := hSB.2.1
        omega
      have hb := (boundaryPair_getElem_iff w m hm).mpr hSB
      have hf := hall ((w.zip w.tail).get ⟨m, hm⟩)
        (by rw [List.get_eq_getElem]; exact List.getElem_mem hm)
      rw [List.get_eq_getElem] at hf
      exact absurd (hb.symm.trans hf) (by decide)
  · intro hno x hx
    obtain ⟨m, hm, rfl⟩ := List.getElem_of_mem hx
    by_contra hbp
    exact hno (m + 1)
      ((boundaryPair_getElem_iff w m hm).mp (by simpa using hbp))

theorem getD_reverse (w : Str) (m : Nat) (hm : m < w.length) :
    w.reverse.getD m 'x' = w.getD (w.length - 1 - m) 'x' := by
  rw [List.getD_eq_getElem _ _ (by simpa using hm),
      List.getD_eq_getElem _ _ (by omega : w.length - 1 - m < w.length)]
  exact List.getElem_reverse _

theorem lastWsIdx_eq_some_iff (w : Str) (j : Nat) :
    lastWsIdx w = some j ↔
      j < w.length ∧ isWs (w.getD j 'x') = true ∧
        ∀ k < w.length, isWs (w.getD k 'x') = true → k ≤ j := by
  unfold lastWsIdx
  rw [Option.map_eq_some']
  constructor
  · rintro ⟨m, hfind, rfl⟩
    rw [List.findIdx?_eq_some_iff_getElem] at hfind
    obtain ⟨hm, hws, hmin⟩ := hfind
    have hmlen : m < w.length := by simpa using hm
    have hjlen : w.length - 1 - m < w.length := by omega
    have hwsD : isWs (w.getD (w.length - 1 - m) 'x') = true := by
      rw [← getD_reverse w m hmlen, List.getD_eq_getElem _ _ hm]
      exact hws
    refine ⟨hjlen, hwsD, ?_⟩
    intro k hk hwsk
    by_contra hgt
    push_neg at hgt
    have hk' : w.length - 1 - k < m := by omega
    have hkrev : w.length - 1 - k < w.reverse.length := by
      simp only [List.length_reverse]; omega
    have hix : w.length - 1 - (w.length - 1 - k) = k := by omega
    have hws' : isWs (w.reverse.get ⟨w.length - 1 - k, hkrev⟩) = true := by
      rw [List.get_eq_getElem]
      rw [← List.getD_eq_getElem _ 'x' hkrev, getD_reverse w _ (by omega),
        hix]
      exact hwsk
    exact hmin _ hk' hws'
  · rintro ⟨hj, hws, hmax⟩
    refine ⟨w.length - 1 - j, ?_, by omega⟩
    rw [List.findIdx?_eq_some_iff_getElem]
    have hb : w.length - 1 - j < w.reverse.length := by
      simp only [List.length_reverse]; omega
    have hix : w.length - 1 - (w.length - 1 - j) = j := by omega
    refine ⟨hb, ?_, ?_⟩
    · rw [← List.getD_eq_getElem _ 'x' hb, getD_reverse w _ (by omega), hix]
      exact hws
    · intro k hk
      have hkb : k < w.reverse.length := by
        simp only [List.length_reverse]; omega
      intro hwk
      have hwk' : isWs (w.getD (w.length - 1 - k) 'x') = true := by
        rw [← getD_reverse w k (by omega), List.getD_eq_getElem _ _ hkb]
        exact hwk
      have := hmax (w.length - 1 - k) (by omega) hwk'
      omega

theorem lastWsIdx_eq_none_iff (w : Str) :
    lastWsIdx w = none ↔ ∀ k < w.length, isWs (w.getD k 'x') = false := by
  unfold lastWsIdx
  rw [Option.map_eq_none', List.findIdx?_eq_none_iff]
  constructor
  · intro hall k hk
    have hkb : w.length - 1 - k < w.reverse.length := by
      simp only [List.length_reverse]; omega
    have hix : w.length - 1 - (w.length - 1 - k) = k := by omega
    have := hall (w.reverse.get ⟨w.length - 1 - k, hkb⟩)
      (by rw [List.get_eq_getElem]; exact List.getElem_mem hkb)
    rw [List.get_eq_getElem] at this
    rw [← List.getD_eq_getElem _ 'x' hkb, getD_reverse w _ (by omega),
      hix] at this
    simpa using this
  · intro hno x hx
    obtain ⟨m, hm, rfl⟩ := List.getElem_of_mem hx
    have hmlen : m < w.length := by simpa using hm
    rw [← List.getD_eq_getElem _ 'x' hm, getD_reverse w m hmlen]
    simpa using hno (w.length - 1 - m) (by omega)

/-- C7 (amended): when the tentative end `pos + chunkSize` is inside the
text, the chunker cuts at the *first* sentence-terminal boundary of the
window (the regex `exec` without a global flag returns the leftmost match),
extended over that boundary's whitespace run; only when the window holds no
such boundary does it cut after the window's last whitespace character, and
only when the window has no whitespace at all does it cut at the tentative
position. -/
theorem chunkEnd_first_boundary (text : Str)
    (pos chunkSize overlap wStart : Nat) (w : Str)
    (hlt : pos + chunkSize < text.length)
    (hws : wStart = max pos (pos + chunkSize - overlap))
    (hw : w = jsSlice text wStart
      (min (pos + chunkSize + overlap) text.length)) :
    (∀ i, SBstart w i → (∀ j < w.length, SBstart w j → i ≤ j) →
      chunkEnd text pos chunkSize overlap = wStart + i + wsRunFrom w i) ∧
    ((∀ i < w.length, ¬ SBstart w i) →
      ∀ j < w.length, isWs (w.getD j 'x') = true →
        (∀ k < w.length, isWs (w.getD k 'x') = true → k ≤ j) →
        chunkEnd text pos chunkSize overlap = wStart + j + 1) ∧
    ((∀ i < w.length, ¬ SBstart w i) →
      (∀ k < w.length, isWs (w.getD k 'x') = false) →
      chunkEnd text pos chunkSize overlap = pos + chunkSize) := by
  have hend0 : min (pos + chunkSize) text.length = pos + chunkSize := by
    omega
  subst hws hw
  unfold chunkEnd
  simp only [hend0, if_pos hlt]
  refine ⟨?_, ?_, ?_⟩
  · intro i hSB hmin
    have hfsb : firstSB (jsSlice text (max pos (pos + chunkSize - overlap))
        (min (pos + chunkSize + overlap) text.length)) = some i :=
      (firstSB_eq_some_iff _ _).mpr
        ⟨hSB, fun j hj hS => absurd (hmin j hS.2.1 hS) (by omega)⟩
    rw [hfsb]
  · intro hnoSB j hj hwsj hmax
    have hfsb : firstSB (jsSlice text (max pos (pos + chunkSize - overlap))
        (min (pos + chunkSize + overlap) text.length)) = none :=
      (firstSB_eq_none_iff _).mpr (fun i hSB => hnoSB i hSB.2.1 hSB)
    have hlast : lastWsIdx (jsSlice text
        (max pos (pos + chunkSize - overlap))
        (min (pos + chunkSize + overlap) text.length)) = some j :=
      (lastWsIdx_eq_some_iff _ _).mpr ⟨hj, hwsj, hmax⟩
    rw [hfsb, hlast]
  · intro hnoSB hnoWs
    have hfsb : firstSB (jsSlice text (max pos (pos + chunkSize - overlap))
        (min (pos + chunkSize + overlap) text.length)) = none :=
      (firstSB_eq_none_iff _).mpr (fun i hSB => hnoSB i hSB.2.1 hSB)
    have hlast : lastWsIdx (jsSlice text
        (max pos (pos + chunkSize - overlap))
        (min (pos + chunkSize + overlap) text.length)) = none :=
      (lastWsIdx_eq_none_iff _).mpr hnoWs
    rw [hfsb, hlast]

/-- C7 (counterexample to the claim as stated): chunking
`"abc. de. fghijklmnopqrstuvwxyz"` with `chunkSize 10, overlap 8` gives the
window `"c. de. fghijklmn"` (text positions 2-18), whose *last*
sentence-terminal boundary starts at window index 6 — a cut there would end
the first chunk at position 9 (`"abc. de."`) — yet the code cuts at position
5, the *first* boundary, producing the chunk `"abc."`. -/
theorem chunkEnd_not_last_boundary :
    chunkEnd ("abc. de. fghijklmnopqrstuvwxyz".toList) 0 10 8 = 5 ∧
    (chunkText ("abc. de. fghijklmnopqrstuvwxyz".toList) 10 8 1).headD [] =
      "abc.".toList ∧
    SBstart (jsSlice ("abc. de. fghijklmnopqrstuvwxyz".toList) 2 18) 6 ∧
    (∀ j < (jsSlice ("abc. de. fghijklmnopqrstuvwxyz".toList) 2 18).length,
      SBstart (jsSlice ("abc. de. fghijklmnopqrstuvwxyz".toList) 2 18) j →
        j ≤ 6) ∧
    2 + 6 + wsRunFrom
      (jsSlice ("abc. de. fghijklmnopqrstuvwxyz".toList) 2 18) 6 = 9 ∧
    (5 : Nat) ≠ 9 := by
  refine ⟨by decide, by decide, by decide, by decide, by decide, by decide⟩

/-- Witness for the amended C7 theorem at the same text: the first boundary
of the window starts at index 2, and the cut lands at `2 + 2 + 1 = 5`. -/
theorem chunkEnd_first_boundary_witness :
    0 + 10 < ("abc. de. fghijklmnopqrstuvwxyz".toList).length ∧
    chunkEnd ("abc. de. fghijklmnopqrstuvwxyz".toList) 0 10 8 =
      2 + 2 + wsRunFrom
        (jsSlice ("abc. de. fghijklmnopqrstuvwxyz".toList) 2 18) 2 :=
  ⟨by decide,
   (chunkEnd_first_boundary ("abc. de. fghijklmnopqrstuvwxyz".toList)
     0 10 8 2 (jsSlice ("abc. de. fghijklmnopqrstuvwxyz".toList) 2 18)
     (by decide) (by decide) (by decide)).1 2 (by decide) (by decide)⟩

/-! ## Similarity bounds (Cauchy-Schwarz for the cosine) -/

theorem dotL_nil_left (b : List ℝ) : dotL [] b = 0 := rfl

theorem dotL_cons (x y : ℝ) (a b : List ℝ) :
    dotL (x :: a) (y :: b) = x * y + dotL a b := by
  simp [dotL]

theorem normSqL_cons (x : ℝ) (a : List ℝ) :
    normSqL (x :: a) = x * x + normSqL a := dotL_cons x x a a

theorem normSqL_nonneg (a : List ℝ) : 0 ≤ normSqL a := by
  induction a with
  | nil => simp [normSqL, dotL]
  | cons x a ih =>
    rw [normSqL_cons]
    have := mul_self_nonneg x
    linarith

theorem dotL_eq_sum (a : List ℝ) :
    ∀ b : List ℝ, b.length = a.length →
      dotL a b = ∑ i in Finset.range a.length, a.getD i 0 * b.getD i 0 := by
  induction a with
  | nil =>
    intro b hb
    simp [dotL]
  | cons x a ih =>
    intro b hb
    match b with
    | y :: b' =>
      rw [dotL_cons, List.length_cons, Finset.sum_range_succ']
      simp only [List.getD_cons_succ, List.getD_cons_zero]
      rw [ih b' (by simpa using hb)]
      ring

theorem dotL_le_sqrt_mul_sqrt (a b : List ℝ) (h : b.length = a.length) :
    dotL a b ≤ Real.sqrt (normSqL a) * Real.sqrt (normSqL b) := by
  have ha : normSqL a =
      ∑ i in Finset.range a.length, (a.getD i 0) ^ 2 := by
    rw [normSqL, dotL_eq_sum a a rfl]
    exact Finset.sum_congr rfl (fun i _ => (pow_two _).symm)
  have hb : normSqL b =
      ∑ i in Finset.range a.length, (b.getD i 0) ^ 2 := by
    rw [normSqL, dotL_eq_sum b b rfl, h]
    exact Finset.sum_congr rfl (fun i _ => (pow_two _).symm)
  have hcs := Finset.sum_mul_sq_le_sq_mul_sq (Finset.range a.length)
    (fun i => a.getD i 0) (fun i => b.getD i 0)
  have hd := dotL_eq_sum a b h
  calc dotL a b ≤ |dotL a b| := le_abs_self _
    _ = Real.sqrt ((dotL a b) ^ 2) := (Real.sqrt_sq_eq_abs _).symm
    _ ≤ Real.sqrt (normSqL a * normSqL b) := by
        apply Real.sqrt_le_sqrt
        rw [hd, ha, hb]
        exact hcs
    _ = Real.sqrt (normSqL a) * Real.sqrt (normSqL b) :=
        Real.sqrt_mul (normSqL_nonneg a) _

theorem cosineSimilarity_le_one (a b : List ℝ) :
    cosineSimilarity a b ≤ 1 := by
  unfold cosineSimilarity
  split
  · norm_num
  · rename_i hlen
    dsimp only
    split
    · norm_num
    · rename_i hmag
      have hlen' : b.length = a.length := by omega
      have hnn : 0 ≤ Real.sqrt (normSqL a) * Real.sqrt (normSqL b) :=
        mul_nonneg (Real.sqrt_nonneg _) (Real.sqrt_nonneg _)
      have hpos : 0 < Real.sqrt (normSqL a) * Real.sqrt (normSqL b) :=
        lt_of_le_of_ne hnn (Ne.symm hmag)
      rw [div_le_one hpos]
      exact dotL_le_sqrt_mul_sqrt a b hlen'

theorem vssSimilarity_le_one (d : ℝ) : vssSimilarity d ≤ 1 := by
  unfold vssSimilarity
  have := mul_self_nonneg d
  apply max_le <;> nlinarith

/-! ## Sorting lemmas for the ranking stage -/

theorem insertDesc_perm (r : SearchResultR) (l : List SearchResultR) :
    (insertDesc r l).Perm (r :: l) := by
  induction l with
  | nil => exact List.Perm.refl _
  | cons x xs ih =>
    unfold insertDesc
    split
    · exact List.Perm.refl _
    · exact ((ih.cons x).trans (List.Perm.swap r x xs))

theorem sortDesc_perm (l : List SearchResultR) : (sortDesc l).Perm l := by
  induction l with
  | nil => exact List.Perm.refl _
  | cons x xs ih =>
    exact (insertDesc_perm x (sortDesc xs)).trans (ih.cons x)

theorem sortDesc_length (l : List SearchResultR) :
    (sortDesc l).length = l.length := (sortDesc_perm l).length_eq

theorem insertDesc_sorted (r : SearchResultR) (l : List SearchResultR)
    (h : SortedDescSim l) : SortedDescSim (insertDesc r l) := by
  induction l with
  | nil => exact List.pairwise_singleton _ _
  | cons x xs ih =>
    obtain ⟨hx, hxs⟩ := List.pairwise_cons.mp h
    unfold insertDesc
    split
    · rename_i hlt
      exact List.pairwise_cons.mpr
        ⟨fun b hb => by
          rcases List.mem_cons.mp hb with rfl | hb'
          · exact le_of_lt hlt
          · exact le_trans (hx b hb') (le_of_lt hlt), h⟩
    · rename_i hnlt
      have hle : r.similarity ≤ x.similarity := le_of_not_lt hnlt
      exact List.pairwise_cons.mpr
        ⟨fun b hb => by
          rcases List.mem_cons.mp ((insertDesc_perm r xs).mem_iff.mp hb)
            with rfl | hb'
          · exact hle
          · exact hx b hb', ih hxs⟩

theorem sortDesc_sorted (l : List SearchResultR) :
    SortedDescSim (sortDesc l) := by
  induction l with
  | nil => exact List.Pairwise.nil
  | cons x xs ih => exact insertDesc_sorted x (sortDesc xs) ih

theorem fallbackSearch_empty_of_one_lt (qe : List ℝ) (rows : List ChunkRowR)
    (limit : Nat) (minSim : ℝ) (dedupe : Bool) (hgt : 1 < minSim) :
    fallbackSearch qe rows limit minSim dedupe = [] := by
  have hnil : (rows.filterMap (fun row =>
      match row.embedding with
      | none => none
      | some e =>
        let similarity := cosineSimilarity qe e
        if minSim ≤ similarity then
          some (SearchResultR.mk row.id row.sourceId similarity)
        else none)) = [] := by
    rw [List.filterMap_eq_nil_iff]
    intro row _
    cases hemb : row.embedding with
    | none => rfl
    | some e =>
      dsimp only
      rw [if_neg (not_le.mpr
        (lt_of_le_of_lt (cosineSimilarity_le_one qe e) hgt))]
  have hempty : processAndRankResults [] limit dedupe = [] := by
    cases dedupe <;> simp [processAndRankResults, sortDesc, bestBySource]
  calc fallbackSearch qe rows limit minSim dedupe
      = processAndRankResults (rows.filterMap (fun row =>
          match row.embedding with
          | none => none
          | some e =>
            let similarity := cosineSimilarity qe e
            if minSim ≤ similarity then
              some (SearchResultR.mk row.id row.sourceId similarity)
            else none)) limit dedupe := rfl
    _ = processAndRankResults [] limit dedupe := by rw [hnil]
    _ = [] := hempty

theorem vssPath_empty_of_one_lt (vssRows : List VssRowR) (limit : Nat)
    (minSim : ℝ) (dedupe : Bool) (hgt : 1 < minSim) :
    vssPath vssRows limit minSim dedupe = [] := by
  have hnil : ((vssRows.map (fun row =>
      SearchResultR.mk row.id row.sourceId
        (vssSimilarity row.distance))).filter
      (fun r => minSim ≤ r.similarity)) = [] := by
    rw [List.filter_eq_nil_iff]
    intro r hr
    obtain ⟨row, -, rfl⟩ := List.mem_map.mp hr
    simpa using not_le.mpr
      (lt_of_le_of_lt (vssSimilarity_le_one row.distance) hgt)
  have hempty : processAndRankResults [] limit dedupe = [] := by
    cases dedupe <;> simp [processAndRankResults, sortDesc, bestBySource]
  calc vssPath vssRows limit minSim dedupe
      = processAndRankResults ((vssRows.map (fun row =>
          SearchResultR.mk row.id row.sourceId
            (vssSimilarity row.distance))).filter
          (fun r => minSim ≤ r.similarity)) limit dedupe := rfl
    _ = processAndRankResults [] limit dedupe := by rw [hnil]
    _ = [] := hempty

/-! ## C5: search at the extreme thresholds -/

/-- C5 (amended): with `minSimilarity = 1.1` both search paths return the
empty result set; with `minSimilarity = 0` and `dedupeBySource = false` the
fallback path returns every embedded chunk *whose cosine similarity to the
query is nonnegative* (a negative-similarity chunk fails the
`similarity >= 0` filter and is excluded), up to `limit`, sorted in
descending order of similarity. -/
theorem search_minSimilarity_extremes (qe : List ℝ) (rows : List ChunkRowR)
    (vssRows : List VssRowR) (limit : Nat) (dedupe : Bool) :
    fallbackSearch qe rows limit (11 / 10) dedupe = [] ∧
    vssPath vssRows limit (11 / 10) dedupe = [] ∧
    SortedDescSim (fallbackSearch qe rows limit 0 false) ∧
    (fallbackSearch qe rows limit 0 false).length =
      min limit (embeddedNonneg qe rows).length ∧
    ((embeddedNonneg qe rows).length ≤ limit →
      (fallbackSearch qe rows limit 0 false).Perm
        (embeddedNonneg qe rows)) := by
  have hfb0 : fallbackSearch qe rows limit 0 false =
      (sortDesc (embeddedNonneg qe rows)).take limit := rfl
  refine ⟨?_, ?_, ?_, ?_, ?_⟩
  · exact fallbackSearch_empty_of_one_lt qe rows limit _ dedupe
      (by norm_num)
  · exact vssPath_empty_of_one_lt vssRows limit _ dedupe (by norm_num)
  · rw [hfb0]
    exact (sortDesc_sorted _).sublist (List.take_sublist _ _)
  · rw [hfb0, List.length_take, sortDesc_length]
  · intro hle
    rw [hfb0, List.take_of_length_le (by rw [sortDesc_length]; exact hle)]
    exact sortDesc_perm _

/-- C5 (counterexample to the claim as stated): a stored chunk whose
embedding points opposite to the query has cosine similarity `-1`; with
`minSimilarity = 0` and `dedupeBySource = false` the fallback search returns
the empty set even though the chunk has an embedding — "every chunk that has
an embedding" fails. -/
theorem fallback_excludes_negative_similarity :
    fallbackSearch [(1 : ℝ), 0] [⟨1, 1, some [(-1 : ℝ), 0]⟩] 10 0 false =
      [] ∧
    ([ChunkRowR.mk 1 1 (some [(-1 : ℝ), 0])].countP
      (fun r => r.embedding.isSome)) = 1 := by
  have hc : cosineSimilarity [(1 : ℝ), 0] [(-1 : ℝ), 0] = -1 := by
    unfold cosineSimilarity
    rw [if_neg (by simp)]
    have hn1 : normSqL [(1 : ℝ), 0] = 1 := by
      norm_num [normSqL, dotL]
    have hn2 : normSqL [(-1 : ℝ), 0] = 1 := by
      norm_num [normSqL, dotL]
    have hd : dotL [(1 : ℝ), 0] [(-1 : ℝ), 0] = -1 := by
      norm_num [dotL]
    dsimp only
    rw [hn1, hn2, Real.sqrt_one, hd]
    norm_num
  constructor
  · have h1 : ([ChunkRowR.mk 1 1 (some [(-1 : ℝ), 0])].filterMap
        (fun row =>
          match row.embedding with
          | none => none
          | some e =>
            let similarity := cosineSimilarity [(1 : ℝ), 0] e
            if (0 : ℝ) ≤ similarity then
              some (SearchResultR.mk row.id row.sourceId similarity)
            else none)) = [] := by
      rw [List.filterMap_eq_nil_iff]
      intro row hrow
      rcases List.mem_singleton.mp hrow with rfl
      dsimp only
      rw [hc, if_neg (by norm_num)]
    calc fallbackSearch [(1 : ℝ), 0] [⟨1, 1, some [(-1 : ℝ), 0]⟩] 10 0 false
        = processAndRankResults ([ChunkRowR.mk 1 1 (some [(-1 : ℝ), 0])].filterMap
            (fun row =>
              match row.embedding with
              | none => none
              | some e =>
                let similarity := cosineSimilarity [(1 : ℝ), 0] e
                if (0 : ℝ) ≤ similarity then
                  some (SearchResultR.mk row.id row.sourceId similarity)
                else none)) 10 false := rfl
      _ = processAndRankResults [] 10 false := by rw [h1]
      _ = [] := by simp [processAndRankResults, sortDesc]
  · rfl

/-- Witness for the amended C5 theorem: a single stored chunk aligned with
the query (similarity `1`) is returned by the `minSimilarity = 0` search:
the result list is a permutation of (here: equal to) the full eligible
list. -/
theorem search_minSimilarity_extremes_witness :
    (embeddedNonneg [(1 : ℝ), 0] [⟨1, 1, some [(1 : ℝ), 0]⟩]).length ≤ 10 ∧
    (fallbackSearch [(1 : ℝ), 0] [⟨1, 1, some [(1 : ℝ), 0]⟩] 10 0
      false).Perm (embeddedNonneg [(1 : ℝ), 0] [⟨1, 1, some [(1 : ℝ), 0]⟩]) := by
  have hc : cosineSimilarity [(1 : ℝ), 0] [(1 : ℝ), 0] = 1 := by
    unfold cosineSimilarity
    rw [if_neg (by simp)]
    have hn1 : normSqL [(1 : ℝ), 0] = 1 := by
      norm_num [normSqL, dotL]
    dsimp only
    rw [hn1, Real.sqrt_one,
      show dotL [(1 : ℝ), 0] [(1 : ℝ), 0] = 1 by norm_num [dotL]]
    norm_num
  have hlen : (embeddedNonneg [(1 : ℝ), 0]
      [⟨1, 1, some [(1 : ℝ), 0]⟩]).length ≤ 10 := by
    unfold embeddedNonneg
    rw [List.filterMap_cons]
    dsimp only
    rw [hc, if_pos (by norm_num)]
    simp
  exact ⟨hlen,
    (search_minSimilarity_extremes [(1 : ℝ), 0] [⟨1, 1, some [(1 : ℝ), 0]⟩]
      [] 10 false).2.2.2.2 hlen⟩

/-! ## C2: accelerated versus exact similarity scores -/

/-- C2 (evaluation at the failing input): for the unit query `(1, 0)` and a
stored unit embedding `(3/5, 4/5)`, the index reports (per the spec) the
squared distance `d² = 4/5`; the spec's conversion `1 - d²/2` gives the
exact cosine `3/5 = 0.6`, but the code squares the reported value again and
computes `max(0, 1 - (4/5)²/2) = 17/25 = 0.68`, while the fallback path's
`cosineSimilarity` returns `3/5`.  The two paths disagree by `0.08` — far
beyond any small numeric tolerance — on a chunk both paths report (both
`0.68` and `0.6` pass a threshold such as `minSimilarity = 0.5`). -/
theorem vss_conversion_diverges_from_cosine :
    normSqL [(1 : ℝ), 0] = 1 ∧
    normSqL [(3 / 5 : ℝ), 4 / 5] = 1 ∧
    vssReportedDistance [(1 : ℝ), 0] [(3 / 5 : ℝ), 4 / 5] = 4 / 5 ∧
    vssSimilarity ((4 : ℝ) / 5) = 17 / 25 ∧
    1 - ((4 : ℝ) / 5) / 2 = 3 / 5 ∧
    cosineSimilarity [(1 : ℝ), 0] [(3 / 5 : ℝ), 4 / 5] = 3 / 5 ∧
    (17 / 25 : ℝ) - 3 / 5 = 2 / 25 ∧ ((1 : ℝ) / 1000) < 2 / 25 := by
  have hn1 : normSqL [(1 : ℝ), 0] = 1 := by norm_num [normSqL, dotL]
  have hn2 : normSqL [(3 / 5 : ℝ), 4 / 5] = 1 := by
    norm_num [normSqL, dotL]
  have hd : dotL [(1 : ℝ), 0] [(3 / 5 : ℝ), 4 / 5] = 3 / 5 := by
    norm_num [dotL]
  refine ⟨hn1, hn2, ?_, ?_, by norm_num, ?_, by norm_num, by norm_num⟩
  · unfold vssReportedDistance sqDist subL
    norm_num [normSqL, dotL]
  · unfold vssSimilarity
    rw [max_eq_right (by norm_num : (0 : ℝ) ≤ 1 - 4 / 5 * (4 / 5) / 2)]
    norm_num
  · unfold cosineSimilarity
    rw [if_neg (by simp)]
    dsimp only
    rw [hn1, hn2, Real.sqrt_one, hd]
    norm_num

end UDB
